import Mathlib

/-!
Verification development for the alternator expression front end
(`expressions.hh`): the DynamoDB-compatible expression language of a
distributed storage engine.  The header under scrutiny declares the parser,
resolver and evaluator entry points; the data model and the bodies of the
resolution/evaluation routines are modelled from the specification where the
repository excerpt contains only their declarations.
-/

set_option maxHeartbeats 1000000

namespace alternator

/-- Modelled from the spec: the concrete item value ("opaque item value",
spec sections 1 and 3).  Numbers are arbitrary-precision decimals, modelled
as exact rationals (no floating-point rounding); strings, booleans, lists,
sets and maps follow the DynamoDB data model. -/
inductive item_value where
  | num (q : ℚ)
  | str (s : String)
  | boolean (b : Bool)
  | list (elems : List item_value)
  | set (elems : List item_value)
  | map (entries : List (String × item_value))

/-- Modelled from the spec: a path element is either an attribute-name
segment (possibly an unresolved name-placeholder) or a list-index segment
(spec section 3, "Path"). -/
inductive path_component where
  | attr (name : String)
  | name_ref (ph : String)
  | index (i : Nat)
deriving DecidableEq

/-- Modelled from the spec: a Path is an ordered sequence of path elements
(spec section 3). -/
abbrev path := List path_component

/-- Modelled from the spec: the Value AST node, a tagged variant
Placeholder / Literal / PathRef / FunctionCall with an ordered argument
sequence (spec section 3, "Value"). -/
inductive value where
  | value_ref (ph : String)
  | literal (w : item_value)
  | path_ref (p : path)
  | func_call (f : String) (args : List value)

/-- Modelled from the spec: the right-hand side of a SET clause — either a
bare Value or a binary arithmetic node restricted to numeric operands
(spec section 3, "SetRhs"). -/
inductive set_rhs where
  | value (v : value)
  | plus (a b : value)
  | minus (a b : value)

/-- Modelled from the spec: the kind of one update clause — SET with a
SetRhs, REMOVE, ADD with a Value, DELETE with a Value (spec section 3,
"UpdateExpression"). -/
inductive action_kind where
  | set (rhs : set_rhs)
  | remove
  | add (v : value)
  | del (v : value)

/-- Modelled from the spec: one update clause, a target Path together with
its clause kind. -/
structure update_action where
  target : path
  kind : action_kind

/-- Modelled from the spec: a parsed UpdateExpression is the collection of
its clauses (spec section 3). -/
structure update_expression where
  actions : List update_action

/-- Modelled from the spec: the comparison operators of the condition
grammar (spec section 3, "ConditionExpression"). -/
inductive comparison_op where
  | eq | ne | lt | le | gt | ge
deriving DecidableEq

/-- Modelled from the spec: a ConditionExpression is a boolean tree whose
leaves are comparisons, BETWEEN, IN or boolean function calls and whose
internal nodes are NOT / AND / OR (spec section 3). -/
inductive condition_expression where
  | comparison (op : comparison_op) (a b : value)
  | between (x lo hi : value)
  | in_list (x : value) (elems : List value)
  | bool_func (f : String) (args : List value)
  | not (c : condition_expression)
  | and (a b : condition_expression)
  | or (a b : condition_expression)

/-- The caller-context discriminator of `calculate_value`, from the header:
`enum class calculate_value_caller { UpdateExpression, ConditionExpression,
ConditionExpressionAlone }`. -/
inductive calculate_value_caller where
  | UpdateExpression
  | ConditionExpression
  | ConditionExpressionAlone
deriving DecidableEq

/-- The underlying integral value of each `calculate_value_caller`
enumerator (C++ enumerators without explicit values count from 0). -/
def calculate_value_caller_underlying : calculate_value_caller → Nat
  | .UpdateExpression => 0
  | .ConditionExpression => 1
  | .ConditionExpressionAlone => 2

/-- The stream-output operator for `calculate_value_caller` from the
header, as a function from the underlying value to the printed string:
the switch prints "UpdateExpression" for UpdateExpression,
"ConditionExpression" for both ConditionExpression and
ConditionExpressionAlone, and "unknown type of expression" in the default
case (any other underlying value). -/
def ostream_calculate_value_caller : Nat → String
  | 0 => "UpdateExpression"
  | 1 => "ConditionExpression"
  | 2 => "ConditionExpression"
  | _ => "unknown type of expression"

/-- Association-list lookup keyed by string, the model of the
placeholder maps ("caller-owned, read-only mappings … keyed by their
literal token text", spec section 3). -/
def assoc_lookup {α : Type} : List (String × α) → String → Option α
  | [], _ => none
  | (k, w) :: rest, key => if k = key then some w else assoc_lookup rest key

/-- Lookup in an optional placeholder map: an absent map never resolves any
key (spec section 4.3: "placeholder used but no map supplied"). -/
def map_lookup {α : Type} : Option (List (String × α)) → String → Option α
  | none, _ => none
  | some m, k => assoc_lookup m k

/-- Modelled from the spec: dereferencing item data along a path
(spec section 4.4, PathRef evaluation): attribute segments index into maps,
index segments into lists; every mismatch means the attribute is absent. -/
def walk_path : item_value → List path_component → Option item_value
  | w, [] => some w
  | .map m, .attr a :: rest =>
      match assoc_lookup m a with
      | some w => walk_path w rest
      | none => none
  | .list l, .index i :: rest =>
      match l.get? i with
      | some w => walk_path w rest
      | none => none
  | _, _ => none

/-- Modelled from the spec: dereferencing the optional `previous_item`
snapshot along a path; an absent item has no attributes. -/
def lookup_path (previous_item : Option item_value) (p : path) : Option item_value :=
  match previous_item with
  | none => none
  | some item => walk_path item p

/-- Modelled from the spec: the evaluation-time error taxonomy (spec
section 7): TypeError, context-violation, attribute absence, arity/kind
("validation") violations, unknown functions, and the internal error of
evaluating a still-unresolved placeholder. -/
inductive eval_error where
  | attribute_not_exists
  | type_error (f : String)
  | context_violation (f : String)
  | validation_error (f : String)
  | unknown_function (f : String)
  | unresolved_placeholder (ph : String)
deriving DecidableEq

/-- Modelled from the spec: `calculate_value(Value, caller_kind,
previous_item)` (spec section 4.4).  A Literal returns itself; a PathRef
dereferences the previous item and fails with "attribute does not exist"
when absent; a FunctionCall dispatches by name under the caller-context
legality rules: `if_not_exists` and `list_append` only in
UpdateExpression value positions, `size` only in condition positions.
`if_not_exists(path, default)` returns the path's current value if
present, else evaluates `default` (absence is handled here, not
propagated); `list_append` concatenates two lists; `size` returns the
string length, list/set cardinality or map key count and fails with a
type error on numbers and booleans. -/
def calculate_value : value → calculate_value_caller → Option item_value → Except eval_error item_value
  | .literal w, _, _ => .ok w
  | .value_ref ph, _, _ => .error (.unresolved_placeholder ph)
  | .path_ref p, _, previous_item =>
      match lookup_path previous_item p with
      | some w => .ok w
      | none => .error .attribute_not_exists
  | .func_call f args, caller, previous_item =>
      if f = "if_not_exists" then
        match caller with
        | .UpdateExpression =>
          match args with
          | [.path_ref p, dflt] =>
              (match lookup_path previous_item p with
               | some w => .ok w
               | none => calculate_value dflt .UpdateExpression previous_item)
          | _ => .error (.validation_error f)
        | _ => .error (.context_violation f)
      else if f = "list_append" then
        match caller with
        | .UpdateExpression =>
          match args with
          | [a, b] =>
              (match calculate_value a .UpdateExpression previous_item,
                     calculate_value b .UpdateExpression previous_item with
               | .ok (.list x), .ok (.list y) => .ok (.list (x ++ y))
               | .ok _, .ok _ => .error (.type_error f)
               | .error e, _ => .error e
               | .ok _, .error e => .error e)
          | _ => .error (.validation_error f)
        | _ => .error (.context_violation f)
      else if f = "size" then
        match caller with
        | .UpdateExpression => .error (.context_violation f)
        | c =>
          match args with
          | [a] =>
              (match calculate_value a c previous_item with
               | .ok (.str s) => .ok (.num s.length)
               | .ok (.list l) => .ok (.num l.length)
               | .ok (.set l) => .ok (.num l.length)
               | .ok (.map m) => .ok (.num m.length)
               | .ok (.num _) => .error (.type_error f)
               | .ok (.boolean _) => .error (.type_error f)
               | .error e => .error e)
          | _ => .error (.validation_error f)
      else .error (.unknown_function f)

/-- Modelled from the spec: the SetRhs overload of `calculate_value`
(declared in the header as `calculate_value(const parsed::set_rhs&, const
rjson::value*)`): evaluates both operands via the Value evaluator in
UpdateExpression context, requires both to be numeric and returns their
exact decimal sum or difference; fails with a type error if either operand
is non-numeric (spec section 4.4). -/
def calculate_value_rhs : set_rhs → Option item_value → Except eval_error item_value
  | .value v, previous_item => calculate_value v .UpdateExpression previous_item
  | .plus a b, previous_item =>
      match calculate_value a .UpdateExpression previous_item,
            calculate_value b .UpdateExpression previous_item with
      | .ok (.num x), .ok (.num y) => .ok (.num (x + y))
      | .ok _, .ok _ => .error (.type_error "+")
      | .error e, _ => .error e
      | .ok _, .error e => .error e
  | .minus a b, previous_item =>
      match calculate_value a .UpdateExpression previous_item,
            calculate_value b .UpdateExpression previous_item with
      | .ok (.num x), .ok (.num y) => .ok (.num (x - y))
      | .ok _, .ok _ => .error (.type_error "-")
      | .error e, _ => .error e
      | .ok _, .error e => .error e

/-- Modelled from the spec: the dynamic type of an item value, used by the
comparison semantics ("same-type required for ordering comparisons",
spec section 4.4). -/
inductive dynamo_type where
  | number | string_type | boolean_type | list_type | set_type | map_type
deriving DecidableEq

/-- The dynamic type of an item value. -/
def type_of : item_value → dynamo_type
  | .num _ => .number
  | .str _ => .string_type
  | .boolean _ => .boolean_type
  | .list _ => .list_type
  | .set _ => .set_type
  | .map _ => .map_type

mutual

/-- Modelled from the spec: structural equality of item values, the `=`
comparison on operands of equal type. -/
def item_value_beq : item_value → item_value → Bool
  | .num a, .num b => a == b
  | .str a, .str b => a == b
  | .boolean a, .boolean b => a == b
  | .list a, .list b => item_value_list_beq a b
  | .set a, .set b => item_value_list_beq a b
  | .map a, .map b => item_value_entries_beq a b
  | _, _ => false

/-- Element-wise equality of item-value lists. -/
def item_value_list_beq : List item_value → List item_value → Bool
  | [], [] => true
  | x :: xs, y :: ys => item_value_beq x y && item_value_list_beq xs ys
  | _, _ => false

/-- Entry-wise equality of map entry lists. -/
def item_value_entries_beq : List (String × item_value) → List (String × item_value) → Bool
  | [], [] => true
  | (k, x) :: xs, (l, y) :: ys => k == l && item_value_beq x y && item_value_entries_beq xs ys
  | _, _ => false

end

/-- Modelled from the spec: DynamoDB comparison semantics over evaluated
operands (spec section 4.4): equality across mismatched types is simply
false and inequality true, rather than an error; the ordering comparisons
require both operands to have the same type (and an orderable one:
numbers compare numerically, strings lexicographically), failing with a
type error otherwise. -/
def compare_values : comparison_op → item_value → item_value → Except eval_error Bool
  | .eq, a, b => .ok (item_value_beq a b)
  | .ne, a, b => .ok (! item_value_beq a b)
  | .lt, a, b =>
      match a, b with
      | .num x, .num y => .ok (decide (x < y))
      | .str x, .str y => .ok (decide (x < y))
      | _, _ => .error (.type_error "<")
  | .le, a, b =>
      match a, b with
      | .num x, .num y => .ok (decide (x ≤ y))
      | .str x, .str y => .ok (decide (x ≤ y))
      | _, _ => .error (.type_error "<=")
  | .gt, a, b =>
      match a, b with
      | .num x, .num y => .ok (decide (y < x))
      | .str x, .str y => .ok (decide (y < x))
      | _, _ => .error (.type_error ">")
  | .ge, a, b =>
      match a, b with
      | .num x, .num y => .ok (decide (y ≤ x))
      | .str x, .str y => .ok (decide (y ≤ x))
      | _, _ => .error (.type_error ">=")

/-- Modelled from the spec: the resolution-time error taxonomy (spec
section 7): ResolutionError (an undefined placeholder, or a placeholder
referenced while its map is absent — the offending key is carried) and
PathCollisionError (the same target path used in more than one
UpdateExpression clause). -/
inductive resolve_error where
  | resolution (key : String)
  | path_collision
deriving DecidableEq

/-- The name-placeholder keys referenced by a path, in order. -/
def path_name_refs : List path_component → List String
  | [] => []
  | .name_ref ph :: rest => ph :: path_name_refs rest
  | .attr _ :: rest => path_name_refs rest
  | .index _ :: rest => path_name_refs rest

/-- Modelled from the spec: resolving the name-placeholders of one path
against the attribute-names map (spec section 4.3): each placeholder is
looked up (failing with ResolutionError if the map is absent or lacks the
key), replaced by the resolved attribute name, and its key recorded; the
second component returned is the list of consumed keys. -/
def resolve_path_components : List path_component → Option (List (String × String)) → Except resolve_error (List path_component × List String)
  | [], _ => .ok ([], [])
  | .name_ref ph :: rest, names =>
      match map_lookup names ph with
      | some nm =>
          (match resolve_path_components rest names with
           | .ok (r, u) => .ok (.attr nm :: r, ph :: u)
           | .error e => .error e)
      | none => .error (.resolution ph)
  | .attr a :: rest, names =>
      match resolve_path_components rest names with
      | .ok (r, u) => .ok (.attr a :: r, u)
      | .error e => .error e
  | .index i :: rest, names =>
      match resolve_path_components rest names with
      | .ok (r, u) => .ok (.index i :: r, u)
      | .error e => .error e

mutual

/-- The name-placeholder keys referenced anywhere in a value. -/
def value_name_refs : value → List String
  | .value_ref _ => []
  | .literal _ => []
  | .path_ref p => path_name_refs p
  | .func_call _ args => values_name_refs args

/-- The name-placeholder keys referenced by a list of values. -/
def values_name_refs : List value → List String
  | [] => []
  | a :: rest => value_name_refs a ++ values_name_refs rest

end

mutual

/-- The value-placeholder keys referenced anywhere in a value. -/
def value_value_refs : value → List String
  | .value_ref ph => [ph]
  | .literal _ => []
  | .path_ref _ => []
  | .func_call _ args => values_value_refs args

/-- The value-placeholder keys referenced by a list of values. -/
def values_value_refs : List value → List String
  | [] => []
  | a :: rest => value_value_refs a ++ values_value_refs rest

end

mutual

/-- Modelled from the spec: resolving one Value node (spec section 4.3):
value-placeholders are looked up in the attribute-values map (failing with
ResolutionError when the map is absent or lacks the key) and replaced by
the literal value, paths are resolved against the attribute-names map, and
function-call arguments are resolved recursively.  Returns the resolved
node together with the consumed name keys and value keys. -/
def resolve_value : value → Option (List (String × String)) → Option (List (String × item_value)) → Except resolve_error (value × List String × List String)
  | .literal w, _, _ => .ok (.literal w, [], [])
  | .value_ref ph, _, vals =>
      (match map_lookup vals ph with
       | some w => .ok (.literal w, [], [ph])
       | none => .error (.resolution ph))
  | .path_ref p, names, _ =>
      (match resolve_path_components p names with
       | .ok (p2, un) => .ok (.path_ref p2, un, [])
       | .error e => .error e)
  | .func_call f args, names, vals =>
      (match resolve_values args names vals with
       | .ok (args2, un, uv) => .ok (.func_call f args2, un, uv)
       | .error e => .error e)

/-- Resolution of an argument list, left to right, failing fast. -/
def resolve_values : List value → Option (List (String × String)) → Option (List (String × item_value)) → Except resolve_error (List value × List String × List String)
  | [], _, _ => .ok ([], [], [])
  | a :: rest, names, vals =>
      (match resolve_value a names vals with
       | .ok (a2, un1, uv1) =>
           (match resolve_values rest names vals with
            | .ok (rest2, un2, uv2) => .ok (a2 :: rest2, un1 ++ un2, uv1 ++ uv2)
            | .error e => .error e)
       | .error e => .error e)

end

/-- The name-placeholder keys referenced by a SetRhs. -/
def set_rhs_name_refs : set_rhs → List String
  | .value v => value_name_refs v
  | .plus a b => value_name_refs a ++ value_name_refs b
  | .minus a b => value_name_refs a ++ value_name_refs b

/-- The value-placeholder keys referenced by a SetRhs. -/
def set_rhs_value_refs : set_rhs → List String
  | .value v => value_value_refs v
  | .plus a b => value_value_refs a ++ value_value_refs b
  | .minus a b => value_value_refs a ++ value_value_refs b

/-- Modelled from the spec: resolving a SET right-hand side — both
arithmetic operands are resolved like any other Value (spec section 4.3:
the resolver "additionally resolve[s] value-placeholders appearing inside
… SetRhs arithmetic operands"). -/
def resolve_set_rhs : set_rhs → Option (List (String × String)) → Option (List (String × item_value)) → Except resolve_error (set_rhs × List String × List String)
  | .value v, names, vals =>
      (match resolve_value v names vals with
       | .ok (v2, un, uv) => .ok (.value v2, un, uv)
       | .error e => .error e)
  | .plus a b, names, vals =>
      (match resolve_value a names vals with
       | .ok (a2, un1, uv1) =>
           (match resolve_value b names vals with
            | .ok (b2, un2, uv2) => .ok (.plus a2 b2, un1 ++ un2, uv1 ++ uv2)
            | .error e => .error e)
       | .error e => .error e)
  | .minus a b, names, vals =>
      (match resolve_value a names vals with
       | .ok (a2, un1, uv1) =>
           (match resolve_value b names vals with
            | .ok (b2, un2, uv2) => .ok (.minus a2 b2, un1 ++ un2, uv1 ++ uv2)
            | .error e => .error e)
       | .error e => .error e)

/-- The name-placeholder keys referenced by a clause body. -/
def action_kind_name_refs : action_kind → List String
  | .set rhs => set_rhs_name_refs rhs
  | .remove => []
  | .add v => value_name_refs v
  | .del v => value_name_refs v

/-- The value-placeholder keys referenced by a clause body. -/
def action_kind_value_refs : action_kind → List String
  | .set rhs => set_rhs_value_refs rhs
  | .remove => []
  | .add v => value_value_refs v
  | .del v => value_value_refs v

/-- Modelled from the spec: resolving the body of one update clause. -/
def resolve_action_kind : action_kind → Option (List (String × String)) → Option (List (String × item_value)) → Except resolve_error (action_kind × List String × List String)
  | .set rhs, names, vals =>
      (match resolve_set_rhs rhs names vals with
       | .ok (rhs2, un, uv) => .ok (.set rhs2, un, uv)
       | .error e => .error e)
  | .remove, _, _ => .ok (.remove, [], [])
  | .add v, names, vals =>
      (match resolve_value v names vals with
       | .ok (v2, un, uv) => .ok (.add v2, un, uv)
       | .error e => .error e)
  | .del v, names, vals =>
      (match resolve_value v names vals with
       | .ok (v2, un, uv) => .ok (.del v2, un, uv)
       | .error e => .error e)

/-- Modelled from the spec: resolving the clause list of an
UpdateExpression clause by clause, failing fast, accumulating used keys. -/
def resolve_actions : List update_action → Option (List (String × String)) → Option (List (String × item_value)) → Except resolve_error (List update_action × List String × List String)
  | [], _, _ => .ok ([], [], [])
  | a :: rest, names, vals =>
      (match resolve_path_components a.target names with
       | .ok (p2, un0) =>
           (match resolve_action_kind a.kind names vals with
            | .ok (k2, un1, uv1) =>
                (match resolve_actions rest names vals with
                 | .ok (rest2, un2, uv2) =>
                     .ok (⟨p2, k2⟩ :: rest2, un0 ++ un1 ++ un2, uv1 ++ uv2)
                 | .error e => .error e)
            | .error e => .error e)
       | .error e => .error e)

/-- Whether some path occurs more than once in the list. -/
def has_duplicate_paths : List path → Bool
  | [] => false
  | p :: rest => decide (p ∈ rest) || has_duplicate_paths rest

/-- The name-placeholder keys referenced by a clause list (target paths
and clause bodies). -/
def actions_name_refs : List update_action → List String
  | [] => []
  | a :: rest =>
      (path_name_refs a.target ++ action_kind_name_refs a.kind) ++ actions_name_refs rest

/-- The value-placeholder keys referenced by a clause list. -/
def actions_value_refs : List update_action → List String
  | [] => []
  | a :: rest => action_kind_value_refs a.kind ++ actions_value_refs rest

/-- The name-placeholder keys referenced by an UpdateExpression. -/
def ue_name_refs (ue : update_expression) : List String :=
  actions_name_refs ue.actions

/-- The value-placeholder keys referenced by an UpdateExpression. -/
def ue_value_refs (ue : update_expression) : List String :=
  actions_value_refs ue.actions

/-- Modelled from the spec: `resolve_update_expression` (declared in the
header): enforces the resolution-time invariant that no Path may appear in
more than one clause across the whole expression, failing with
PathCollisionError before any placeholder work (so the collision is
reported regardless of map contents, as the spec's scenario requires),
then resolves every clause, replacing placeholders and accumulating the
used-name and used-value key sets; any undefined placeholder makes the
whole resolution fail with ResolutionError. -/
def resolve_update_expression (ue : update_expression) (names : Option (List (String × String))) (vals : Option (List (String × item_value))) : Except resolve_error (update_expression × List String × List String) :=
  if has_duplicate_paths (ue.actions.map update_action.target) then
    .error .path_collision
  else
    match resolve_actions ue.actions names vals with
    | .ok (as2, un, uv) => .ok (⟨as2⟩, un, uv)
    | .error e => .error e

/-- The name-placeholder keys referenced by a ConditionExpression. -/
def ce_name_refs : condition_expression → List String
  | .comparison _ a b => value_name_refs a ++ value_name_refs b
  | .between x lo hi => value_name_refs x ++ value_name_refs lo ++ value_name_refs hi
  | .in_list x elems => value_name_refs x ++ values_name_refs elems
  | .bool_func _ args => values_name_refs args
  | .not c => ce_name_refs c
  | .and a b => ce_name_refs a ++ ce_name_refs b
  | .or a b => ce_name_refs a ++ ce_name_refs b

/-- The value-placeholder keys referenced by a ConditionExpression. -/
def ce_value_refs : condition_expression → List String
  | .comparison _ a b => value_value_refs a ++ value_value_refs b
  | .between x lo hi => value_value_refs x ++ value_value_refs lo ++ value_value_refs hi
  | .in_list x elems => value_value_refs x ++ values_value_refs elems
  | .bool_func _ args => values_value_refs args
  | .not c => ce_value_refs c
  | .and a b => ce_value_refs a ++ ce_value_refs b
  | .or a b => ce_value_refs a ++ ce_value_refs b

/-- Modelled from the spec: `resolve_condition_expression` (declared in
the header): walks the boolean tree depth-first, resolving every
name-placeholder and value-placeholder in comparison operands and
function-call arguments, failing fast with ResolutionError on the first
undefined placeholder. -/
def resolve_condition_expression : condition_expression → Option (List (String × String)) → Option (List (String × item_value)) → Except resolve_error (condition_expression × List String × List String)
  | .comparison op a b, names, vals =>
      (match resolve_value a names vals with
       | .ok (a2, un1, uv1) =>
           (match resolve_value b names vals with
            | .ok (b2, un2, uv2) => .ok (.comparison op a2 b2, un1 ++ un2, uv1 ++ uv2)
            | .error e => .error e)
       | .error e => .error e)
  | .between x lo hi, names, vals =>
      (match resolve_value x names vals with
       | .ok (x2, un1, uv1) =>
           (match resolve_value lo names vals with
            | .ok (lo2, un2, uv2) =>
                (match resolve_value hi names vals with
                 | .ok (hi2, un3, uv3) =>
                     .ok (.between x2 lo2 hi2, un1 ++ un2 ++ un3, uv1 ++ uv2 ++ uv3)
                 | .error e => .error e)
            | .error e => .error e)
       | .error e => .error e)
  | .in_list x elems, names, vals =>
      (match resolve_value x names vals with
       | .ok (x2, un1, uv1) =>
           (match resolve_values elems names vals with
            | .ok (elems2, un2, uv2) => .ok (.in_list x2 elems2, un1 ++ un2, uv1 ++ uv2)
            | .error e => .error e)
       | .error e => .error e)
  | .bool_func f args, names, vals =>
      (match resolve_values args names vals with
       | .ok (args2, un, uv) => .ok (.bool_func f args2, un, uv)
       | .error e => .error e)
  | .not c, names, vals =>
      (match resolve_condition_expression c names vals with
       | .ok (c2, un, uv) => .ok (.not c2, un, uv)
       | .error e => .error e)
  | .and a b, names, vals =>
      (match resolve_condition_expression a names vals with
       | .ok (a2, un1, uv1) =>
           (match resolve_condition_expression b names vals with
            | .ok (b2, un2, uv2) => .ok (.and a2 b2, un1 ++ un2, uv1 ++ uv2)
            | .error e => .error e)
       | .error e => .error e)
  | .or a b, names, vals =>
      (match resolve_condition_expression a names vals with
       | .ok (a2, un1, uv1) =>
           (match resolve_condition_expression b names vals with
            | .ok (b2, un2, uv2) => .ok (.or a2 b2, un1 ++ un2, uv1 ++ uv2)
            | .error e => .error e)
       | .error e => .error e)

/-- The name-placeholder keys referenced by a ProjectionExpression. -/
def pe_name_refs : List path → List String
  | [] => []
  | p :: rest => path_name_refs p ++ pe_name_refs rest

/-- Modelled from the spec: `resolve_projection_expression` (declared in
the header): resolves each projected path's name-placeholders against the
attribute-names map only — the declaration takes no attribute-values map
and no used-value set — recording the consumed name keys. -/
def resolve_projection_expression : List path → Option (List (String × String)) → Except resolve_error (List path × List String)
  | [], _ => .ok ([], [])
  | p :: rest, names =>
      (match resolve_path_components p names with
       | .ok (p2, u1) =>
           (match resolve_projection_expression rest names with
            | .ok (rest2, u2) => .ok (p2 :: rest2, u1 ++ u2)
            | .error e => .error e)
       | .error e => .error e)

/-- The first path segment of a path, when it is a concrete attribute
name. -/
def path_first_attr : path → Option String
  | .attr a :: _ => some a
  | _ => none

mutual

/-- The first-segment attribute names of every Path referenced anywhere in
a value (paths inside function arguments included), in traversal order,
duplicates kept. -/
def value_attrs : value → List String
  | .value_ref _ => []
  | .literal _ => []
  | .path_ref p =>
      (match path_first_attr p with
       | some a => [a]
       | none => [])
  | .func_call _ args => values_attrs args

/-- The first-segment attribute names referenced by a list of values. -/
def values_attrs : List value → List String
  | [] => []
  | a :: rest => value_attrs a ++ values_attrs rest

end

/-- Modelled from the spec: the enumeration behind
`for_condition_expression_on` (spec section 4.6): the first-segment
attribute names of every Path referenced anywhere in the tree, in
traversal order, duplicates included. -/
def condition_expression_attrs : condition_expression → List String
  | .comparison _ a b => value_attrs a ++ value_attrs b
  | .between x lo hi => value_attrs x ++ value_attrs lo ++ value_attrs hi
  | .in_list x elems => value_attrs x ++ values_attrs elems
  | .bool_func _ args => values_attrs args
  | .not c => condition_expression_attrs c
  | .and a b => condition_expression_attrs a ++ condition_expression_attrs b
  | .or a b => condition_expression_attrs a ++ condition_expression_attrs b

/-- Modelled from the spec: `condition_expression_on` (declared in the
header): whether the given attribute is the first path segment of some
Path referenced anywhere in the tree — function arguments and comparison
operands included. -/
def condition_expression_on : condition_expression → String → Bool
  | .comparison _ a b, attr =>
      (value_attrs a).contains attr || (value_attrs b).contains attr
  | .between x lo hi, attr =>
      (value_attrs x).contains attr || (value_attrs lo).contains attr
        || (value_attrs hi).contains attr
  | .in_list x elems, attr =>
      (value_attrs x).contains attr || (values_attrs elems).contains attr
  | .bool_func _ args, attr => (values_attrs args).contains attr
  | .not c, attr => condition_expression_on c attr
  | .and a b, attr => condition_expression_on a attr || condition_expression_on b attr
  | .or a b, attr => condition_expression_on a attr || condition_expression_on b attr

/-- The caller-observable state around one `resolve_update_expression`
call: the AST it owns and the two usage sets it supplies by reference
(header lines 33–37). -/
structure update_request_state where
  expr : update_expression
  used_attribute_names : List String
  used_attribute_values : List String

/-- A caller invoking `resolve_update_expression` on its state: on success
the AST is replaced by the resolved one and the consumed keys are added to
the two usage sets; on failure the error is reported.  Modelled from the
spec: failure "aborts the current … resolve … call immediately with no
partial, observable output". -/
def apply_resolve_update (st : update_request_state) (names : Option (List (String × String))) (vals : Option (List (String × item_value))) : update_request_state × Option resolve_error :=
  match resolve_update_expression st.expr names vals with
  | .ok (ue2, un, uv) =>
      (⟨ue2, st.used_attribute_names ++ un, st.used_attribute_values ++ uv⟩, none)
  | .error e => (st, some e)

/-- The caller-observable usage-set state around expression resolution. -/
structure expression_resolution_state where
  used_attribute_names : List String
  used_attribute_values : List String
deriving DecidableEq

/-- A caller invoking `resolve_projection_expression` while holding both
usage sets: the declaration (header lines 38–40) takes only the
attribute-names map and the used-names set, so the attribute-values map
and the used-values set play no part. -/
def resolve_projection_in_context (pe : List path) (names : Option (List (String × String))) (_vals : Option (List (String × item_value))) (st : expression_resolution_state) : Except resolve_error (List path × expression_resolution_state) :=
  match resolve_projection_expression pe names with
  | .ok (pe2, un) => .ok (pe2, ⟨st.used_attribute_names ++ un, st.used_attribute_values⟩)
  | .error e => .error e

/-- `has_duplicate_paths` detects exactly the failure of `Nodup`. -/
theorem has_duplicate_paths_iff (l : List path) :
    has_duplicate_paths l = true ↔ ¬ l.Nodup := by
  induction l with
  | nil => simp [has_duplicate_paths]
  | cons p rest ih =>
      simp [has_duplicate_paths, List.nodup_cons, ih]
      tauto

/-- C1: whenever the same target path appears in more than one clause of an
UpdateExpression, `resolve_update_expression` fails with PathCollisionError
for every content of the attribute-name and attribute-value maps; in
particular it never resolves such an expression successfully. -/
theorem resolve_update_expression_duplicate_path_collision
    (ue : update_expression)
    (names : Option (List (String × String)))
    (vals : Option (List (String × item_value)))
    (hdup : ¬ (ue.actions.map update_action.target).Nodup) :
    resolve_update_expression ue names vals = .error .path_collision := by
  have h : has_duplicate_paths (ue.actions.map update_action.target) = true :=
    (has_duplicate_paths_iff _).mpr hdup
  simp [resolve_update_expression, h]

/-- Witness for C1: the spec's scenario `SET a = a + :x, a = a - :y` (path
"a" as the target of two SET clauses) fails with PathCollisionError even
with both placeholder maps absent. -/
theorem resolve_update_expression_duplicate_path_collision_witness :
    ¬ ((update_expression.mk
         [⟨[path_component.attr "a"],
            .set (.plus (.path_ref [.attr "a"]) (.value_ref ":x"))⟩,
          ⟨[path_component.attr "a"],
            .set (.minus (.path_ref [.attr "a"]) (.value_ref ":y"))⟩]).actions.map
        update_action.target).Nodup
    ∧ resolve_update_expression
        (update_expression.mk
          [⟨[path_component.attr "a"],
             .set (.plus (.path_ref [.attr "a"]) (.value_ref ":x"))⟩,
           ⟨[path_component.attr "a"],
             .set (.minus (.path_ref [.attr "a"]) (.value_ref ":y"))⟩])
        none none = .error .path_collision :=
  ⟨by decide,
   resolve_update_expression_duplicate_path_collision _ none none (by decide)⟩

/-- C9: the stream-output operator for `calculate_value_caller` prints the
identical string "ConditionExpression" for both the ConditionExpression
and the ConditionExpressionAlone enumerators, prints "UpdateExpression"
for UpdateExpression, and prints "unknown type of expression" for every
other underlying value. -/
theorem ostream_calculate_value_caller_spec :
    ostream_calculate_value_caller
        (calculate_value_caller_underlying .ConditionExpression) = "ConditionExpression"
    ∧ ostream_calculate_value_caller
        (calculate_value_caller_underlying .ConditionExpressionAlone) = "ConditionExpression"
    ∧ ostream_calculate_value_caller
        (calculate_value_caller_underlying .UpdateExpression) = "UpdateExpression"
    ∧ ∀ n : Nat,
        n ≠ calculate_value_caller_underlying .UpdateExpression →
        n ≠ calculate_value_caller_underlying .ConditionExpression →
        n ≠ calculate_value_caller_underlying .ConditionExpressionAlone →
        ostream_calculate_value_caller n = "unknown type of expression" := by
  refine ⟨rfl, rfl, rfl, ?_⟩
  intro n h0 h1 h2
  match n, h0, h1, h2 with
  | n + 3, _, _, _ => rfl
  | 0, h0, _, _ => exact absurd rfl h0
  | 1, _, h1, _ => exact absurd rfl h1
  | 2, _, _, h2 => exact absurd rfl h2

/-- Witness for C9: the underlying value 3 lies outside the enumerators
and prints the default string. -/
theorem ostream_calculate_value_caller_spec_witness :
    ostream_calculate_value_caller 3 = "unknown type of expression" :=
  ostream_calculate_value_caller_spec.2.2.2 3 (by decide) (by decide) (by decide)

/-- C10: projection resolution consumes only name placeholders — its
result is independent of the attribute-values map and a successful call
leaves the caller's used-attribute-values set unchanged. -/
theorem resolve_projection_expression_frame
    (pe : List path)
    (names : Option (List (String × String)))
    (vals1 vals2 : Option (List (String × item_value)))
    (st : expression_resolution_state) :
    resolve_projection_in_context pe names vals1 st
      = resolve_projection_in_context pe names vals2 st
    ∧ ∀ pe2 st2, resolve_projection_in_context pe names vals1 st = .ok (pe2, st2) →
        st2.used_attribute_values = st.used_attribute_values := by
  constructor
  · rfl
  · intro pe2 st2 h
    unfold resolve_projection_in_context at h
    split at h
    · cases h
      rfl
    · cases h

/-- Witness for C10: a concrete projection resolution with a value map
supplied leaves the used-attribute-values set exactly as it was. -/
theorem resolve_projection_expression_frame_witness :
    (expression_resolution_state.mk ["#n"] [":u"]).used_attribute_values = [":u"] :=
  (resolve_projection_expression_frame [[path_component.attr "x"]] none
      (some [(":v", .num 1)]) none ⟨["#n"], [":u"]⟩).2
    [[path_component.attr "x"]] ⟨["#n"], [":u"]⟩ rfl

/-- C2: SET arithmetic on two operands that evaluate to numbers returns
their exact arbitrary-precision decimal sum or difference, and when either
operand evaluates to a non-numeric value it fails with a type error. -/
theorem calculate_value_rhs_arithmetic
    (a b : value) (previous_item : Option item_value) :
    (∀ x y : ℚ,
       calculate_value a .UpdateExpression previous_item = .ok (.num x) →
       calculate_value b .UpdateExpression previous_item = .ok (.num y) →
       calculate_value_rhs (.plus a b) previous_item = .ok (.num (x + y))
       ∧ calculate_value_rhs (.minus a b) previous_item = .ok (.num (x - y)))
    ∧ (∀ w u : item_value,
       calculate_value a .UpdateExpression previous_item = .ok w →
       calculate_value b .UpdateExpression previous_item = .ok u →
       type_of w ≠ .number ∨ type_of u ≠ .number →
       (∃ m, calculate_value_rhs (.plus a b) previous_item = .error (.type_error m))
       ∧ (∃ m, calculate_value_rhs (.minus a b) previous_item = .error (.type_error m))) := by
  constructor
  · intro x y ha hb
    constructor <;> simp [calculate_value_rhs, ha, hb]
  · intro w u ha hb hnum
    cases w <;> cases u <;> simp [type_of] at hnum <;>
      exact ⟨⟨"+", by simp [calculate_value_rhs, ha, hb]⟩,
             ⟨"-", by simp [calculate_value_rhs, ha, hb]⟩⟩

/-- Witness for C2: the spec's exactness scenario — the decimal operands
1.1 and 2.2 sum to exactly 3.3, with no rounding. -/
theorem calculate_value_rhs_arithmetic_witness :
    calculate_value_rhs
        (.plus (.literal (.num (11/10))) (.literal (.num (22/10)))) none
      = .ok (.num (33/10)) := by
  have h :=
    ((calculate_value_rhs_arithmetic
        (.literal (.num (11/10))) (.literal (.num (22/10))) none).1
      (11/10) (22/10) rfl rfl).1
  rw [show (11/10 : ℚ) + 22/10 = 33/10 by norm_num] at h
  exact h

/-- C3: `calculate_value` on `if_not_exists(path, default)` returns the
item's existing value at the path when present, and the result of
evaluating `default` when absent — absence inside `if_not_exists` is never
propagated as an "attribute does not exist" error. -/
theorem calculate_value_if_not_exists
    (p : path) (dflt : value) (previous_item : Option item_value) :
    (∀ w, lookup_path previous_item p = some w →
       calculate_value (.func_call "if_not_exists" [.path_ref p, dflt])
           .UpdateExpression previous_item = .ok w)
    ∧ (lookup_path previous_item p = none →
       calculate_value (.func_call "if_not_exists" [.path_ref p, dflt])
           .UpdateExpression previous_item
         = calculate_value dflt .UpdateExpression previous_item) := by
  constructor
  · intro w h
    simp [calculate_value, h]
  · intro h
    simp [calculate_value, h]

/-- Witness for C3: with item `{a: 7}` and default 0, `if_not_exists(a, 0)`
returns the existing value 7. -/
theorem calculate_value_if_not_exists_witness :
    calculate_value
        (.func_call "if_not_exists"
          [.path_ref [.attr "a"], .literal (.num 0)])
        .UpdateExpression (some (.map [("a", .num 7)])) = .ok (.num 7) :=
  (calculate_value_if_not_exists [.attr "a"] (.literal (.num 0))
      (some (.map [("a", .num 7)]))).1 (.num 7) rfl

/-- C5: over evaluated comparison operands of mismatched types, `=` is
simply false and `<>` simply true rather than an error, while every
ordering comparison requires the two operands to have the same type and
fails with a type error on the mismatch. -/
theorem compare_values_mismatched_types
    (a b : item_value) (h : type_of a ≠ type_of b) :
    compare_values .eq a b = .ok false
    ∧ compare_values .ne a b = .ok true
    ∧ ∀ op : comparison_op,
        op = .lt ∨ op = .le ∨ op = .gt ∨ op = .ge →
        ∃ m, compare_values op a b = .error (.type_error m) := by
  have hbeq : item_value_beq a b = false := by
    cases a <;> cases b <;> simp [type_of] at h <;> simp [item_value_beq]
  refine ⟨by simp [compare_values, hbeq], by simp [compare_values, hbeq], ?_⟩
  intro op hop
  rcases hop with rfl | rfl | rfl | rfl
  · cases a <;> cases b <;> simp [type_of] at h <;>
      exact ⟨"<", by simp [compare_values]⟩
  · cases a <;> cases b <;> simp [type_of] at h <;>
      exact ⟨"<=", by simp [compare_values]⟩
  · cases a <;> cases b <;> simp [type_of] at h <;>
      exact ⟨">", by simp [compare_values]⟩
  · cases a <;> cases b <;> simp [type_of] at h <;>
      exact ⟨">=", by simp [compare_values]⟩

/-- Witness for C5: comparing the number 1 with the string "x". -/
theorem compare_values_mismatched_types_witness :
    compare_values .eq (.num 1) (.str "x") = .ok false
    ∧ compare_values .ne (.num 1) (.str "x") = .ok true :=
  ⟨(compare_values_mismatched_types (.num 1) (.str "x") (by decide)).1,
   (compare_values_mismatched_types (.num 1) (.str "x") (by decide)).2.1⟩

/-- C6: `size` on an operand evaluating to a string of length L returns L,
on a set or list of N elements returns N, on a map returns its key count,
and on a numeric or boolean operand fails with TypeError — in the
condition contexts where `size` is legal. -/
theorem calculate_value_size
    (a : value) (c : calculate_value_caller) (previous_item : Option item_value)
    (hc : c = .ConditionExpression ∨ c = .ConditionExpressionAlone) :
    (∀ s, calculate_value a c previous_item = .ok (.str s) →
       calculate_value (.func_call "size" [a]) c previous_item = .ok (.num s.length))
    ∧ (∀ l, calculate_value a c previous_item = .ok (.list l) →
       calculate_value (.func_call "size" [a]) c previous_item = .ok (.num l.length))
    ∧ (∀ l, calculate_value a c previous_item = .ok (.set l) →
       calculate_value (.func_call "size" [a]) c previous_item = .ok (.num l.length))
    ∧ (∀ m, calculate_value a c previous_item = .ok (.map m) →
       calculate_value (.func_call "size" [a]) c previous_item = .ok (.num m.length))
    ∧ (∀ q : ℚ, calculate_value a c previous_item = .ok (.num q) →
       ∃ m, calculate_value (.func_call "size" [a]) c previous_item
         = .error (.type_error m))
    ∧ (∀ b : Bool, calculate_value a c previous_item = .ok (.boolean b) →
       ∃ m, calculate_value (.func_call "size" [a]) c previous_item
         = .error (.type_error m)) := by
  rcases hc with rfl | rfl <;>
    exact ⟨fun s h => by simp [calculate_value, h],
           fun l h => by simp [calculate_value, h],
           fun l h => by simp [calculate_value, h],
           fun m h => by simp [calculate_value, h],
           fun q h => ⟨"size", by simp [calculate_value, h]⟩,
           fun b h => ⟨"size", by simp [calculate_value, h]⟩⟩

/-- Witness for C6: `size` of the three-character string "abc" is 3. -/
theorem calculate_value_size_witness :
    calculate_value (.func_call "size" [.literal (.str "abc")])
        .ConditionExpression none = .ok (.num ("abc".length)) :=
  (calculate_value_size (.literal (.str "abc")) .ConditionExpression none
      (Or.inl rfl)).1 "abc" rfl

/-- C7: `condition_expression_on(tree, attribute)` returns true exactly
when the attribute is the first path segment of some Path referenced
anywhere in the tree (paths inside function arguments and comparison
operands included); in particular, on a tree referencing only attribute
"b" it returns false for "a" and true for "b". -/
theorem condition_expression_on_first_segment :
    (∀ (ce : condition_expression) (attr : String),
       condition_expression_on ce attr = true
         ↔ attr ∈ condition_expression_attrs ce)
    ∧ condition_expression_on
        (.comparison .eq (.path_ref [.attr "b"]) (.literal (.num 1))) "a" = false
    ∧ condition_expression_on
        (.comparison .eq (.path_ref [.attr "b"]) (.literal (.num 1))) "b" = true := by
  refine ⟨?_, by decide, by decide⟩
  intro ce attr
  induction ce with
  | comparison op a b =>
      simp [condition_expression_on, condition_expression_attrs]
  | between x lo hi =>
      simp [condition_expression_on, condition_expression_attrs, or_assoc]
  | in_list x elems =>
      simp [condition_expression_on, condition_expression_attrs]
  | bool_func f args =>
      simp [condition_expression_on, condition_expression_attrs]
  | not c ih =>
      simpa [condition_expression_on, condition_expression_attrs] using ih
  | and a b iha ihb =>
      simp [condition_expression_on, condition_expression_attrs, iha, ihb]
  | or a b iha ihb =>
      simp [condition_expression_on, condition_expression_attrs, iha, ihb]

/-- Soundness of path resolution: success implies every referenced
name-placeholder key is present in the map and the resolved path carries
no placeholder, and failure is always a ResolutionError. -/
theorem resolve_path_components_sound
    (p : List path_component) (names : Option (List (String × String))) :
    (∀ r u, resolve_path_components p names = .ok (r, u) →
       (∀ k ∈ path_name_refs p, (map_lookup names k).isSome = true)
       ∧ path_name_refs r = [])
    ∧ (∀ e, resolve_path_components p names = .error e →
       ∃ k, e = .resolution k) := by
  induction p with
  | nil =>
      constructor
      · intro r u h
        simp [resolve_path_components] at h
        obtain ⟨h1, _⟩ := h
        subst h1
        simp [path_name_refs]
      · intro e h
        simp [resolve_path_components] at h
  | cons c rest ih =>
      obtain ⟨ihok, iherr⟩ := ih
      cases c with
      | attr a =>
          cases hrec : resolve_path_components rest names with
          | ok ru =>
              obtain ⟨r2, u2⟩ := ru
              constructor
              · intro r u h
                simp [resolve_path_components, hrec] at h
                obtain ⟨h1, _⟩ := h
                subst h1
                have hr := ihok r2 u2 hrec
                exact ⟨by simpa [path_name_refs] using hr.1,
                       by simpa [path_name_refs] using hr.2⟩
              · intro e h
                simp [resolve_path_components, hrec] at h
          | error e2 =>
              constructor
              · intro r u h
                simp [resolve_path_components, hrec] at h
              · intro e h
                simp [resolve_path_components, hrec] at h
                subst h
                exact iherr e2 hrec
      | index i =>
          cases hrec : resolve_path_components rest names with
          | ok ru =>
              obtain ⟨r2, u2⟩ := ru
              constructor
              · intro r u h
                simp [resolve_path_components, hrec] at h
                obtain ⟨h1, _⟩ := h
                subst h1
                have hr := ihok r2 u2 hrec
                exact ⟨by simpa [path_name_refs] using hr.1,
                       by simpa [path_name_refs] using hr.2⟩
              · intro e h
                simp [resolve_path_components, hrec] at h
          | error e2 =>
              constructor
              · intro r u h
                simp [resolve_path_components, hrec] at h
              · intro e h
                simp [resolve_path_components, hrec] at h
                subst h
                exact iherr e2 hrec
      | name_ref ph =>
          cases hl : map_lookup names ph with
          | some nm =>
              cases hrec : resolve_path_components rest names with
              | ok ru =>
                  obtain ⟨r2, u2⟩ := ru
                  constructor
                  · intro r u h
                    simp [resolve_path_components, hl, hrec] at h
                    obtain ⟨h1, _⟩ := h
                    subst h1
                    have hr := ihok r2 u2 hrec
                    constructor
                    · intro k hk
                      simp [path_name_refs] at hk
                      rcases hk with rfl | hk
                      · simp [hl]
                      · exact hr.1 k hk
                    · simpa [path_name_refs] using hr.2
                  · intro e h
                    simp [resolve_path_components, hl, hrec] at h
              | error e2 =>
                  constructor
                  · intro r u h
                    simp [resolve_path_components, hl, hrec] at h
                  · intro e h
                    simp [resolve_path_components, hl, hrec] at h
                    subst h
                    exact iherr e2 hrec
          | none =>
              constructor
              · intro r u h
                simp [resolve_path_components, hl] at h
              · intro e h
                simp [resolve_path_components, hl] at h
                exact ⟨ph, h.symm⟩

/-- Soundness of Value resolution, stated for all values and argument
lists of bounded size (the bound makes the nested recursion inductive):
success implies every referenced placeholder key is present in its map and
the resolved node carries no placeholder, and failure is always a
ResolutionError. -/
theorem resolve_value_sound_fuel (fuel : Nat) :
    (∀ v : value, sizeOf v ≤ fuel →
       ∀ (n : Option (List (String × String))) (m : Option (List (String × item_value))),
       (∀ r un uv, resolve_value v n m = .ok (r, un, uv) →
          (∀ k ∈ value_name_refs v, (map_lookup n k).isSome = true)
          ∧ (∀ k ∈ value_value_refs v, (map_lookup m k).isSome = true)
          ∧ value_name_refs r = [] ∧ value_value_refs r = [])
       ∧ (∀ e, resolve_value v n m = .error e → ∃ k, e = .resolution k))
    ∧ (∀ vs : List value, sizeOf vs ≤ fuel →
       ∀ (n : Option (List (String × String))) (m : Option (List (String × item_value))),
       (∀ rs un uv, resolve_values vs n m = .ok (rs, un, uv) →
          (∀ k ∈ values_name_refs vs, (map_lookup n k).isSome = true)
          ∧ (∀ k ∈ values_value_refs vs, (map_lookup m k).isSome = true)
          ∧ values_name_refs rs = [] ∧ values_value_refs rs = [])
       ∧ (∀ e, resolve_values vs n m = .error e → ∃ k, e = .resolution k)) := by
  induction fuel with
  | zero =>
      constructor
      · intro v hv
        exfalso
        cases v <;> simp at hv
      · intro vs hvs
        exfalso
        cases vs <;> simp at hvs
  | succ N ih =>
      obtain ⟨ihv, ihvs⟩ := ih
      constructor
      · intro v hv n m
        cases v with
        | literal w =>
            constructor
            · intro r un uv h
              simp [resolve_value] at h
              obtain ⟨h1, _⟩ := h
              subst h1
              simp [value_name_refs, value_value_refs]
            · intro e h
              simp [resolve_value] at h
        | value_ref ph =>
            cases hl : map_lookup m ph with
            | some w =>
                constructor
                · intro r un uv h
                  simp [resolve_value, hl] at h
                  obtain ⟨h1, _⟩ := h
                  subst h1
                  simp [value_name_refs, value_value_refs, hl]
                · intro e h
                  simp [resolve_value, hl] at h
            | none =>
                constructor
                · intro r un uv h
                  simp [resolve_value, hl] at h
                · intro e h
                  simp [resolve_value, hl] at h
                  exact ⟨ph, h.symm⟩
        | path_ref p =>
            obtain ⟨pok, perr⟩ := resolve_path_components_sound p n
            cases hrec : resolve_path_components p n with
            | ok ru =>
                obtain ⟨p2, u2⟩ := ru
                constructor
                · intro r un uv h
                  simp [resolve_value, hrec] at h
                  obtain ⟨h1, _⟩ := h
                  subst h1
                  have hp := pok p2 u2 hrec
                  exact ⟨by simpa [value_name_refs] using hp.1,
                         by simp [value_value_refs],
                         by simpa [value_name_refs] using hp.2,
                         by simp [value_value_refs]⟩
                · intro e h
                  simp [resolve_value, hrec] at h
            | error e2 =>
                constructor
                · intro r un uv h
                  simp [resolve_value, hrec] at h
                · intro e h
                  simp [resolve_value, hrec] at h
                  subst h
                  exact perr e2 hrec
        | func_call f args =>
            have hargs : sizeOf args ≤ N := by
              simp at hv
              omega
            have ha := ihvs args hargs n m
            cases hrec : resolve_values args n m with
            | ok ru =>
                obtain ⟨rs, un1, uv1⟩ := ru
                constructor
                · intro r un uv h
                  simp [resolve_value, hrec] at h
                  obtain ⟨h1, _⟩ := h
                  subst h1
                  have hr := ha.1 rs un1 uv1 hrec
                  exact ⟨by simpa [value_name_refs] using hr.1,
                         by simpa [value_value_refs] using hr.2.1,
                         by simpa [value_name_refs] using hr.2.2.1,
                         by simpa [value_value_refs] using hr.2.2.2⟩
                · intro e h
                  simp [resolve_value, hrec] at h
            | error e2 =>
                constructor
                · intro r un uv h
                  simp [resolve_value, hrec] at h
                · intro e h
                  simp [resolve_value, hrec] at h
                  subst h
                  exact ha.2 e2 hrec
      · intro vs hvs n m
        cases vs with
        | nil =>
            constructor
            · intro rs un uv h
              simp [resolve_values] at h
              obtain ⟨h1, _⟩ := h
              subst h1
              simp [values_name_refs, values_value_refs]
            · intro e h
              simp [resolve_values] at h
        | cons a rest =>
            have hsa : sizeOf a ≤ N := by
              simp at hvs
              omega
            have hsrest : sizeOf rest ≤ N := by
              simp at hvs
              omega
            have hav := ihv a hsa n m
            have hrestv := ihvs rest hsrest n m
            cases hra : resolve_value a n m with
            | ok ru1 =>
                obtain ⟨a2, un1, uv1⟩ := ru1
                cases hrr : resolve_values rest n m with
                | ok ru2 =>
                    obtain ⟨rest2, un2, uv2⟩ := ru2
                    constructor
                    · intro rs un uv h
                      simp [resolve_values, hra, hrr] at h
                      obtain ⟨h1, _⟩ := h
                      subst h1
                      have h1v := hav.1 a2 un1 uv1 hra
                      have h2v := hrestv.1 rest2 un2 uv2 hrr
                      constructor
                      · intro k hk
                        simp [values_name_refs] at hk
                        rcases hk with hk | hk
                        · exact h1v.1 k hk
                        · exact h2v.1 k hk
                      constructor
                      · intro k hk
                        simp [values_value_refs] at hk
                        rcases hk with hk | hk
                        · exact h1v.2.1 k hk
                        · exact h2v.2.1 k hk
                      constructor
                      · simp [values_name_refs, h1v.2.2.1, h2v.2.2.1]
                      · simp [values_value_refs, h1v.2.2.2, h2v.2.2.2]
                    · intro e h
                      simp [resolve_values, hra, hrr] at h
                | error e2 =>
                    constructor
                    · intro rs un uv h
                      simp [resolve_values, hra, hrr] at h
                    · intro e h
                      simp [resolve_values, hra, hrr] at h
                      subst h
                      exact hrestv.2 e2 hrr
            | error e1 =>
                constructor
                · intro rs un uv h
                  simp [resolve_values, hra] at h
                · intro e h
                  simp [resolve_values, hra] at h
                  subst h
                  exact hav.2 e1 hra

/-- Soundness of Value resolution (the fuel bound discharged). -/
theorem resolve_value_sound (v : value)
    (n : Option (List (String × String))) (m : Option (List (String × item_value))) :
    (∀ r un uv, resolve_value v n m = .ok (r, un, uv) →
       (∀ k ∈ value_name_refs v, (map_lookup n k).isSome = true)
       ∧ (∀ k ∈ value_value_refs v, (map_lookup m k).isSome = true)
       ∧ value_name_refs r = [] ∧ value_value_refs r = [])
    ∧ (∀ e, resolve_value v n m = .error e → ∃ k, e = .resolution k) :=
  (resolve_value_sound_fuel (sizeOf v)).1 v le_rfl n m

/-- Soundness of argument-list resolution (the fuel bound discharged). -/
theorem resolve_values_sound (vs : List value)
    (n : Option (List (String × String))) (m : Option (List (String × item_value))) :
    (∀ rs un uv, resolve_values vs n m = .ok (rs, un, uv) →
       (∀ k ∈ values_name_refs vs, (map_lookup n k).isSome = true)
       ∧ (∀ k ∈ values_value_refs vs, (map_lookup m k).isSome = true)
       ∧ values_name_refs rs = [] ∧ values_value_refs rs = [])
    ∧ (∀ e, resolve_values vs n m = .error e → ∃ k, e = .resolution k) :=
  (resolve_value_sound_fuel (sizeOf vs)).2 vs le_rfl n m

/-- Soundness of SetRhs resolution: success implies presence of every
referenced placeholder key and a fully resolved result; failure is always
a ResolutionError. -/
theorem resolve_set_rhs_sound (rhs : set_rhs)
    (n : Option (List (String × String))) (m : Option (List (String × item_value))) :
    (∀ r un uv, resolve_set_rhs rhs n m = .ok (r, un, uv) →
       (∀ k ∈ set_rhs_name_refs rhs, (map_lookup n k).isSome = true)
       ∧ (∀ k ∈ set_rhs_value_refs rhs, (map_lookup m k).isSome = true)
       ∧ set_rhs_name_refs r = [] ∧ set_rhs_value_refs r = [])
    ∧ (∀ e, resolve_set_rhs rhs n m = .error e → ∃ k, e = .resolution k) := by
  cases rhs with
  | value v =>
      obtain ⟨vok, verr⟩ := resolve_value_sound v n m
      cases hrv : resolve_value v n m with
      | ok ru =>
          obtain ⟨v2, un1, uv1⟩ := ru
          constructor
          · intro r un uv h
            simp [resolve_set_rhs, hrv] at h
            obtain ⟨h1, _⟩ := h
            subst h1
            have hv := vok v2 un1 uv1 hrv
            exact ⟨by simpa [set_rhs_name_refs] using hv.1,
                   by simpa [set_rhs_value_refs] using hv.2.1,
                   by simpa [set_rhs_name_refs] using hv.2.2.1,
                   by simpa [set_rhs_value_refs] using hv.2.2.2⟩
          · intro e h
            simp [resolve_set_rhs, hrv] at h
      | error e1 =>
          constructor
          · intro r un uv h
            simp [resolve_set_rhs, hrv] at h
          · intro e h
            simp [resolve_set_rhs, hrv] at h
            subst h
            exact verr e1 hrv
  | plus a b =>
      obtain ⟨aok, aerr⟩ := resolve_value_sound a n m
      obtain ⟨bok, berr⟩ := resolve_value_sound b n m
      cases hra : resolve_value a n m with
      | ok ru1 =>
          obtain ⟨a2, un1, uv1⟩ := ru1
          cases hrb : resolve_value b n m with
          | ok ru2 =>
              obtain ⟨b2, un2, uv2⟩ := ru2
              constructor
              · intro r un uv h
                simp [resolve_set_rhs, hra, hrb] at h
                obtain ⟨h1, _⟩ := h
                subst h1
                have ha := aok a2 un1 uv1 hra
                have hb := bok b2 un2 uv2 hrb
                constructor
                · intro k hk
                  simp [set_rhs_name_refs] at hk
                  rcases hk with hk | hk
                  · exact ha.1 k hk
                  · exact hb.1 k hk
                constructor
                · intro k hk
                  simp [set_rhs_value_refs] at hk
                  rcases hk with hk | hk
                  · exact ha.2.1 k hk
                  · exact hb.2.1 k hk
                constructor
                · simp [set_rhs_name_refs, ha.2.2.1, hb.2.2.1]
                · simp [set_rhs_value_refs, ha.2.2.2, hb.2.2.2]
              · intro e h
                simp [resolve_set_rhs, hra, hrb] at h
          | error e2 =>
              constructor
              · intro r un uv h
                simp [resolve_set_rhs, hra, hrb] at h
              · intro e h
                simp [resolve_set_rhs, hra, hrb] at h
                subst h
                exact berr e2 hrb
      | error e1 =>
          constructor
          · intro r un uv h
            simp [resolve_set_rhs, hra] at h
          · intro e h
            simp [resolve_set_rhs, hra] at h
            subst h
            exact aerr e1 hra
  | minus a b =>
      obtain ⟨aok, aerr⟩ := resolve_value_sound a n m
      obtain ⟨bok, berr⟩ := resolve_value_sound b n m
      cases hra : resolve_value a n m with
      | ok ru1 =>
          obtain ⟨a2, un1, uv1⟩ := ru1
          cases hrb : resolve_value b n m with
          | ok ru2 =>
              obtain ⟨b2, un2, uv2⟩ := ru2
              constructor
              · intro r un uv h
                simp [resolve_set_rhs, hra, hrb] at h
                obtain ⟨h1, _⟩ := h
                subst h1
                have ha := aok a2 un1 uv1 hra
                have hb := bok b2 un2 uv2 hrb
                constructor
                · intro k hk
                  simp [set_rhs_name_refs] at hk
                  rcases hk with hk | hk
                  · exact ha.1 k hk
                  · exact hb.1 k hk
                constructor
                · intro k hk
                  simp [set_rhs_value_refs] at hk
                  rcases hk with hk | hk
                  · exact ha.2.1 k hk
                  · exact hb.2.1 k hk
                constructor
                · simp [set_rhs_name_refs, ha.2.2.1, hb.2.2.1]
                · simp [set_rhs_value_refs, ha.2.2.2, hb.2.2.2]
              · intro e h
                simp [resolve_set_rhs, hra, hrb] at h
          | error e2 =>
              constructor
              · intro r un uv h
                simp [resolve_set_rhs, hra, hrb] at h
              · intro e h
                simp [resolve_set_rhs, hra, hrb] at h
                subst h
                exact berr e2 hrb
      | error e1 =>
          constructor
          · intro r un uv h
            simp [resolve_set_rhs, hra] at h
          · intro e h
            simp [resolve_set_rhs, hra] at h
            subst h
            exact aerr e1 hra

/-- Soundness of clause-body resolution. -/
theorem resolve_action_kind_sound (k0 : action_kind)
    (n : Option (List (String × String))) (m : Option (List (String × item_value))) :
    (∀ r un uv, resolve_action_kind k0 n m = .ok (r, un, uv) →
       (∀ k ∈ action_kind_name_refs k0, (map_lookup n k).isSome = true)
       ∧ (∀ k ∈ action_kind_value_refs k0, (map_lookup m k).isSome = true)
       ∧ action_kind_name_refs r = [] ∧ action_kind_value_refs r = [])
    ∧ (∀ e, resolve_action_kind k0 n m = .error e → ∃ k, e = .resolution k) := by
  cases k0 with
  | set rhs =>
      obtain ⟨rok, rerr⟩ := resolve_set_rhs_sound rhs n m
      cases hr : resolve_set_rhs rhs n m with
      | ok ru =>
          obtain ⟨rhs2, un1, uv1⟩ := ru
          constructor
          · intro r un uv h
            simp [resolve_action_kind, hr] at h
            obtain ⟨h1, _⟩ := h
            subst h1
            have hv := rok rhs2 un1 uv1 hr
            exact ⟨by simpa [action_kind_name_refs] using hv.1,
                   by simpa [action_kind_value_refs] using hv.2.1,
                   by simpa [action_kind_name_refs] using hv.2.2.1,
                   by simpa [action_kind_value_refs] using hv.2.2.2⟩
          · intro e h
            simp [resolve_action_kind, hr] at h
      | error e1 =>
          constructor
          · intro r un uv h
            simp [resolve_action_kind, hr] at h
          · intro e h
            simp [resolve_action_kind, hr] at h
            subst h
            exact rerr e1 hr
  | remove =>
      constructor
      · intro r un uv h
        simp [resolve_action_kind] at h
        obtain ⟨h1, _⟩ := h
        subst h1
        simp [action_kind_name_refs, action_kind_value_refs]
      · intro e h
        simp [resolve_action_kind] at h
  | add v =>
      obtain ⟨vok, verr⟩ := resolve_value_sound v n m
      cases hr : resolve_value v n m with
      | ok ru =>
          obtain ⟨v2, un1, uv1⟩ := ru
          constructor
          · intro r un uv h
            simp [resolve_action_kind, hr] at h
            obtain ⟨h1, _⟩ := h
            subst h1
            have hv := vok v2 un1 uv1 hr
            exact ⟨by simpa [action_kind_name_refs] using hv.1,
                   by simpa [action_kind_value_refs] using hv.2.1,
                   by simpa [action_kind_name_refs] using hv.2.2.1,
                   by simpa [action_kind_value_refs] using hv.2.2.2⟩
          · intro e h
            simp [resolve_action_kind, hr] at h
      | error e1 =>
          constructor
          · intro r un uv h
            simp [resolve_action_kind, hr] at h
          · intro e h
            simp [resolve_action_kind, hr] at h
            subst h
            exact verr e1 hr
  | del v =>
      obtain ⟨vok, verr⟩ := resolve_value_sound v n m
      cases hr : resolve_value v n m with
      | ok ru =>
          obtain ⟨v2, un1, uv1⟩ := ru
          constructor
          · intro r un uv h
            simp [resolve_action_kind, hr] at h
            obtain ⟨h1, _⟩ := h
            subst h1
            have hv := vok v2 un1 uv1 hr
            exact ⟨by simpa [action_kind_name_refs] using hv.1,
                   by simpa [action_kind_value_refs] using hv.2.1,
                   by simpa [action_kind_name_refs] using hv.2.2.1,
                   by simpa [action_kind_value_refs] using hv.2.2.2⟩
          · intro e h
            simp [resolve_action_kind, hr] at h
      | error e1 =>
          constructor
          · intro r un uv h
            simp [resolve_action_kind, hr] at h
          · intro e h
            simp [resolve_action_kind, hr] at h
            subst h
            exact verr e1 hr

/-- Soundness of clause-list resolution. -/
theorem resolve_actions_sound (acts : List update_action)
    (n : Option (List (String × String))) (m : Option (List (String × item_value))) :
    (∀ rs un uv, resolve_actions acts n m = .ok (rs, un, uv) →
       (∀ k ∈ actions_name_refs acts, (map_lookup n k).isSome = true)
       ∧ (∀ k ∈ actions_value_refs acts, (map_lookup m k).isSome = true)
       ∧ actions_name_refs rs = [] ∧ actions_value_refs rs = [])
    ∧ (∀ e, resolve_actions acts n m = .error e → ∃ k, e = .resolution k) := by
  induction acts with
  | nil =>
      constructor
      · intro rs un uv h
        simp [resolve_actions] at h
        obtain ⟨h1, _⟩ := h
        subst h1
        simp [actions_name_refs, actions_value_refs]
      · intro e h
        simp [resolve_actions] at h
  | cons a rest ih =>
      obtain ⟨ihok, iherr⟩ := ih
      obtain ⟨pok, perr⟩ := resolve_path_components_sound a.target n
      obtain ⟨kok, kerr⟩ := resolve_action_kind_sound a.kind n m
      cases hp : resolve_path_components a.target n with
      | ok pu =>
          obtain ⟨p2, un0⟩ := pu
          cases hk : resolve_action_kind a.kind n m with
          | ok ku =>
              obtain ⟨k2, un1, uv1⟩ := ku
              cases hrest : resolve_actions rest n m with
              | ok ru =>
                  obtain ⟨rest2, un2, uv2⟩ := ru
                  constructor
                  · intro rs un uv h
                    simp [resolve_actions, hp, hk, hrest] at h
                    obtain ⟨h1, _⟩ := h
                    subst h1
                    have hpv := pok p2 un0 hp
                    have hkv := kok k2 un1 uv1 hk
                    have hrv := ihok rest2 un2 uv2 hrest
                    constructor
                    · intro k hkm
                      simp [actions_name_refs] at hkm
                      rcases hkm with hkm | hkm | hkm
                      · exact hpv.1 k hkm
                      · exact hkv.1 k hkm
                      · exact hrv.1 k hkm
                    constructor
                    · intro k hkm
                      simp [actions_value_refs] at hkm
                      rcases hkm with hkm | hkm
                      · exact hkv.2.1 k hkm
                      · exact hrv.2.1 k hkm
                    constructor
                    · simp [actions_name_refs, hpv.2, hkv.2.2.1, hrv.2.2.1]
                    · simp [actions_value_refs, hkv.2.2.2, hrv.2.2.2]
                  · intro e h
                    simp [resolve_actions, hp, hk, hrest] at h
              | error e2 =>
                  constructor
                  · intro rs un uv h
                    simp [resolve_actions, hp, hk, hrest] at h
                  · intro e h
                    simp [resolve_actions, hp, hk, hrest] at h
                    subst h
                    exact iherr e2 hrest
          | error e1 =>
              constructor
              · intro rs un uv h
                simp [resolve_actions, hp, hk] at h
              · intro e h
                simp [resolve_actions, hp, hk] at h
                subst h
                exact kerr e1 hk
      | error e0 =>
          constructor
          · intro rs un uv h
            simp [resolve_actions, hp] at h
          · intro e h
            simp [resolve_actions, hp] at h
            subst h
            exact perr e0 hp

/-- Soundness of ConditionExpression resolution: success implies presence
of every referenced placeholder key and a fully resolved tree; failure is
always a ResolutionError. -/
theorem resolve_condition_expression_sound (ce : condition_expression)
    (n : Option (List (String × String))) (m : Option (List (String × item_value))) :
    (∀ r un uv, resolve_condition_expression ce n m = .ok (r, un, uv) →
       (∀ k ∈ ce_name_refs ce, (map_lookup n k).isSome = true)
       ∧ (∀ k ∈ ce_value_refs ce, (map_lookup m k).isSome = true)
       ∧ ce_name_refs r = [] ∧ ce_value_refs r = [])
    ∧ (∀ e, resolve_condition_expression ce n m = .error e → ∃ k, e = .resolution k) := by
  induction ce with
  | comparison op a b =>
      obtain ⟨aok, aerr⟩ := resolve_value_sound a n m
      obtain ⟨bok, berr⟩ := resolve_value_sound b n m
      cases hra : resolve_value a n m with
      | ok ru1 =>
          obtain ⟨a2, un1, uv1⟩ := ru1
          cases hrb : resolve_value b n m with
          | ok ru2 =>
              obtain ⟨b2, un2, uv2⟩ := ru2
              constructor
              · intro r un uv h
                simp [resolve_condition_expression, hra, hrb] at h
                obtain ⟨h1, _⟩ := h
                subst h1
                have ha := aok a2 un1 uv1 hra
                have hb := bok b2 un2 uv2 hrb
                constructor
                · intro k hk
                  simp [ce_name_refs] at hk
                  rcases hk with hk | hk
                  · exact ha.1 k hk
                  · exact hb.1 k hk
                constructor
                · intro k hk
                  simp [ce_value_refs] at hk
                  rcases hk with hk | hk
                  · exact ha.2.1 k hk
                  · exact hb.2.1 k hk
                constructor
                · simp [ce_name_refs, ha.2.2.1, hb.2.2.1]
                · simp [ce_value_refs, ha.2.2.2, hb.2.2.2]
              · intro e h
                simp [resolve_condition_expression, hra, hrb] at h
          | error e2 =>
              constructor
              · intro r un uv h
                simp [resolve_condition_expression, hra, hrb] at h
              · intro e h
                simp [resolve_condition_expression, hra, hrb] at h
                subst h
                exact berr e2 hrb
      | error e1 =>
          constructor
          · intro r un uv h
            simp [resolve_condition_expression, hra] at h
          · intro e h
            simp [resolve_condition_expression, hra] at h
            subst h
            exact aerr e1 hra
  | between x lo hi =>
      obtain ⟨xok, xerr⟩ := resolve_value_sound x n m
      obtain ⟨lok, lerr⟩ := resolve_value_sound lo n m
      obtain ⟨hok, herr⟩ := resolve_value_sound hi n m
      cases hrx : resolve_value x n m with
      | ok ru1 =>
          obtain ⟨x2, un1, uv1⟩ := ru1
          cases hrl : resolve_value lo n m with
          | ok ru2 =>
              obtain ⟨lo2, un2, uv2⟩ := ru2
              cases hrh : resolve_value hi n m with
              | ok ru3 =>
                  obtain ⟨hi2, un3, uv3⟩ := ru3
                  constructor
                  · intro r un uv h
                    simp [resolve_condition_expression, hrx, hrl, hrh] at h
                    obtain ⟨h1, _⟩ := h
                    subst h1
                    have hx := xok x2 un1 uv1 hrx
                    have hl := lok lo2 un2 uv2 hrl
                    have hh := hok hi2 un3 uv3 hrh
                    constructor
                    · intro k hk
                      simp [ce_name_refs] at hk
                      rcases hk with hk | hk | hk
                      · exact hx.1 k hk
                      · exact hl.1 k hk
                      · exact hh.1 k hk
                    constructor
                    · intro k hk
                      simp [ce_value_refs] at hk
                      rcases hk with hk | hk | hk
                      · exact hx.2.1 k hk
                      · exact hl.2.1 k hk
                      · exact hh.2.1 k hk
                    constructor
                    · simp [ce_name_refs, hx.2.2.1, hl.2.2.1, hh.2.2.1]
                    · simp [ce_value_refs, hx.2.2.2, hl.2.2.2, hh.2.2.2]
                  · intro e h
                    simp [resolve_condition_expression, hrx, hrl, hrh] at h
              | error e3 =>
                  constructor
                  · intro r un uv h
                    simp [resolve_condition_expression, hrx, hrl, hrh] at h
                  · intro e h
                    simp [resolve_condition_expression, hrx, hrl, hrh] at h
                    subst h
                    exact herr e3 hrh
          | error e2 =>
              constructor
              · intro r un uv h
                simp [resolve_condition_expression, hrx, hrl] at h
              · intro e h
                simp [resolve_condition_expression, hrx, hrl] at h
                subst h
                exact lerr e2 hrl
      | error e1 =>
          constructor
          · intro r un uv h
            simp [resolve_condition_expression, hrx] at h
          · intro e h
            simp [resolve_condition_expression, hrx] at h
            subst h
            exact xerr e1 hrx
  | in_list x elems =>
      obtain ⟨xok, xerr⟩ := resolve_value_sound x n m
      obtain ⟨eok, eerr⟩ := resolve_values_sound elems n m
      cases hrx : resolve_value x n m with
      | ok ru1 =>
          obtain ⟨x2, un1, uv1⟩ := ru1
          cases hre : resolve_values elems n m with
          | ok ru2 =>
              obtain ⟨elems2, un2, uv2⟩ := ru2
              constructor
              · intro r un uv h
                simp [resolve_condition_expression, hrx, hre] at h
                obtain ⟨h1, _⟩ := h
                subst h1
                have hx := xok x2 un1 uv1 hrx
                have he := eok elems2 un2 uv2 hre
                constructor
                · intro k hk
                  simp [ce_name_refs] at hk
                  rcases hk with hk | hk
                  · exact hx.1 k hk
                  · exact he.1 k hk
                constructor
                · intro k hk
                  simp [ce_value_refs] at hk
                  rcases hk with hk | hk
                  · exact hx.2.1 k hk
                  · exact he.2.1 k hk
                constructor
                · simp [ce_name_refs, hx.2.2.1, he.2.2.1]
                · simp [ce_value_refs, hx.2.2.2, he.2.2.2]
              · intro e h
                simp [resolve_condition_expression, hrx, hre] at h
          | error e2 =>
              constructor
              · intro r un uv h
                simp [resolve_condition_expression, hrx, hre] at h
              · intro e h
                simp [resolve_condition_expression, hrx, hre] at h
                subst h
                exact eerr e2 hre
      | error e1 =>
          constructor
          · intro r un uv h
            simp [resolve_condition_expression, hrx] at h
          · intro e h
            simp [resolve_condition_expression, hrx] at h
            subst h
            exact xerr e1 hrx
  | bool_func f args =>
      obtain ⟨aok, aerr⟩ := resolve_values_sound args n m
      cases hra : resolve_values args n m with
      | ok ru =>
          obtain ⟨args2, un1, uv1⟩ := ru
          constructor
          · intro r un uv h
            simp [resolve_condition_expression, hra] at h
            obtain ⟨h1, _⟩ := h
            subst h1
            have ha := aok args2 un1 uv1 hra
            exact ⟨by simpa [ce_name_refs] using ha.1,
                   by simpa [ce_value_refs] using ha.2.1,
                   by simpa [ce_name_refs] using ha.2.2.1,
                   by simpa [ce_value_refs] using ha.2.2.2⟩
          · intro e h
            simp [resolve_condition_expression, hra] at h
      | error e1 =>
          constructor
          · intro r un uv h
            simp [resolve_condition_expression, hra] at h
          · intro e h
            simp [resolve_condition_expression, hra] at h
            subst h
            exact aerr e1 hra
  | not c ih =>
      obtain ⟨ihok, iherr⟩ := ih
      cases hrc : resolve_condition_expression c n m with
      | ok ru =>
          obtain ⟨c2, un1, uv1⟩ := ru
          constructor
          · intro r un uv h
            simp [resolve_condition_expression, hrc] at h
            obtain ⟨h1, _⟩ := h
            subst h1
            have hc := ihok c2 un1 uv1 hrc
            exact ⟨by simpa [ce_name_refs] using hc.1,
                   by simpa [ce_value_refs] using hc.2.1,
                   by simpa [ce_name_refs] using hc.2.2.1,
                   by simpa [ce_value_refs] using hc.2.2.2⟩
          · intro e h
            simp [resolve_condition_expression, hrc] at h
      | error e1 =>
          constructor
          · intro r un uv h
            simp [resolve_condition_expression, hrc] at h
          · intro e h
            simp [resolve_condition_expression, hrc] at h
            subst h
            exact iherr e1 hrc
  | and a b iha ihb =>
      obtain ⟨aok, aerr⟩ := iha
      obtain ⟨bok, berr⟩ := ihb
      cases hra : resolve_condition_expression a n m with
      | ok ru1 =>
          obtain ⟨a2, un1, uv1⟩ := ru1
          cases hrb : resolve_condition_expression b n m with
          | ok ru2 =>
              obtain ⟨b2, un2, uv2⟩ := ru2
              constructor
              · intro r un uv h
                simp [resolve_condition_expression, hra, hrb] at h
                obtain ⟨h1, _⟩ := h
                subst h1
                have ha := aok a2 un1 uv1 hra
                have hb := bok b2 un2 uv2 hrb
                constructor
                · intro k hk
                  simp [ce_name_refs] at hk
                  rcases hk with hk | hk
                  · exact ha.1 k hk
                  · exact hb.1 k hk
                constructor
                · intro k hk
                  simp [ce_value_refs] at hk
                  rcases hk with hk | hk
                  · exact ha.2.1 k hk
                  · exact hb.2.1 k hk
                constructor
                · simp [ce_name_refs, ha.2.2.1, hb.2.2.1]
                · simp [ce_value_refs, ha.2.2.2, hb.2.2.2]
              · intro e h
                simp [resolve_condition_expression, hra, hrb] at h
          | error e2 =>
              constructor
              · intro r un uv h
                simp [resolve_condition_expression, hra, hrb] at h
              · intro e h
                simp [resolve_condition_expression, hra, hrb] at h
                subst h
                exact berr e2 hrb
      | error e1 =>
          constructor
          · intro r un uv h
            simp [resolve_condition_expression, hra] at h
          · intro e h
            simp [resolve_condition_expression, hra] at h
            subst h
            exact aerr e1 hra
  | or a b iha ihb =>
      obtain ⟨aok, aerr⟩ := iha
      obtain ⟨bok, berr⟩ := ihb
      cases hra : resolve_condition_expression a n m with
      | ok ru1 =>
          obtain ⟨a2, un1, uv1⟩ := ru1
          cases hrb : resolve_condition_expression b n m with
          | ok ru2 =>
              obtain ⟨b2, un2, uv2⟩ := ru2
              constructor
              · intro r un uv h
                simp [resolve_condition_expression, hra, hrb] at h
                obtain ⟨h1, _⟩ := h
                subst h1
                have ha := aok a2 un1 uv1 hra
                have hb := bok b2 un2 uv2 hrb
                constructor
                · intro k hk
                  simp [ce_name_refs] at hk
                  rcases hk with hk | hk
                  · exact ha.1 k hk
                  · exact hb.1 k hk
                constructor
                · intro k hk
                  simp [ce_value_refs] at hk
                  rcases hk with hk | hk
                  · exact ha.2.1 k hk
                  · exact hb.2.1 k hk
                constructor
                · simp [ce_name_refs, ha.2.2.1, hb.2.2.1]
                · simp [ce_value_refs, ha.2.2.2, hb.2.2.2]
              · intro e h
                simp [resolve_condition_expression, hra, hrb] at h
          | error e2 =>
              constructor
              · intro r un uv h
                simp [resolve_condition_expression, hra, hrb] at h
              · intro e h
                simp [resolve_condition_expression, hra, hrb] at h
                subst h
                exact berr e2 hrb
      | error e1 =>
          constructor
          · intro r un uv h
            simp [resolve_condition_expression, hra] at h
          · intro e h
            simp [resolve_condition_expression, hra] at h
            subst h
            exact aerr e1 hra

/-- Soundness of ProjectionExpression resolution. -/
theorem resolve_projection_expression_sound (pe : List path)
    (n : Option (List (String × String))) :
    (∀ rs u, resolve_projection_expression pe n = .ok (rs, u) →
       ∀ k ∈ pe_name_refs pe, (map_lookup n k).isSome = true)
    ∧ (∀ e, resolve_projection_expression pe n = .error e → ∃ k, e = .resolution k) := by
  induction pe with
  | nil =>
      constructor
      · intro rs u h k hk
        simp [pe_name_refs] at hk
      · intro e h
        simp [resolve_projection_expression] at h
  | cons p rest ih =>
      obtain ⟨ihok, iherr⟩ := ih
      obtain ⟨pok, perr⟩ := resolve_path_components_sound p n
      cases hp : resolve_path_components p n with
      | ok pu =>
          obtain ⟨p2, u1⟩ := pu
          cases hrest : resolve_projection_expression rest n with
          | ok ru =>
              obtain ⟨rest2, u2⟩ := ru
              constructor
              · intro rs u h k hk
                simp [pe_name_refs] at hk
                rcases hk with hk | hk
                · exact (pok p2 u1 hp).1 k hk
                · exact ihok rest2 u2 hrest k hk
              · intro e h
                simp [resolve_projection_expression, hp, hrest] at h
          | error e2 =>
              constructor
              · intro rs u h
                simp [resolve_projection_expression, hp, hrest] at h
              · intro e h
                simp [resolve_projection_expression, hp, hrest] at h
                subst h
                exact iherr e2 hrest
      | error e1 =>
          constructor
          · intro rs u h
            simp [resolve_projection_expression, hp] at h
          · intro e h
            simp [resolve_projection_expression, hp] at h
            subst h
            exact perr e1 hp

/-- C4: an expression (update, condition or projection) that references a
name- or value-placeholder whose key is absent from the corresponding
supplied map never resolves: resolution fails with ResolutionError (the
update case assumes the expression's target paths are free of the
duplicate-path violation, which is reported first), so a placeholder token
is never silently treated as a literal name or value. -/
theorem resolution_undefined_placeholder_fails :
    (∀ (ue : update_expression) (n : Option (List (String × String)))
       (v : Option (List (String × item_value))) (k : String),
       (ue.actions.map update_action.target).Nodup →
       ((k ∈ ue_name_refs ue ∧ map_lookup n k = none)
         ∨ (k ∈ ue_value_refs ue ∧ map_lookup v k = none)) →
       ∃ k2, resolve_update_expression ue n v = .error (.resolution k2))
    ∧ (∀ (ce : condition_expression) (n : Option (List (String × String)))
       (v : Option (List (String × item_value))) (k : String),
       ((k ∈ ce_name_refs ce ∧ map_lookup n k = none)
         ∨ (k ∈ ce_value_refs ce ∧ map_lookup v k = none)) →
       ∃ k2, resolve_condition_expression ce n v = .error (.resolution k2))
    ∧ (∀ (pe : List path) (n : Option (List (String × String))) (k : String),
       k ∈ pe_name_refs pe → map_lookup n k = none →
       ∃ k2, resolve_projection_expression pe n = .error (.resolution k2)) := by
  refine ⟨?_, ?_, ?_⟩
  · intro ue n v k hnd habs
    have hd : has_duplicate_paths (ue.actions.map update_action.target) = false := by
      rw [Bool.eq_false_iff]
      intro hc
      exact (has_duplicate_paths_iff _).mp hc hnd
    obtain ⟨aok, aerr⟩ := resolve_actions_sound ue.actions n v
    cases hra : resolve_actions ue.actions n v with
    | ok ru =>
        exfalso
        obtain ⟨rs, un, uv⟩ := ru
        have hs := aok rs un uv hra
        rcases habs with ⟨hk, hnone⟩ | ⟨hk, hnone⟩
        · have := hs.1 k (by simpa [ue_name_refs] using hk)
          rw [hnone] at this
          simp at this
        · have := hs.2.1 k (by simpa [ue_value_refs] using hk)
          rw [hnone] at this
          simp at this
    | error e =>
        obtain ⟨k2, hk2⟩ := aerr e hra
        subst hk2
        exact ⟨k2, by simp [resolve_update_expression, hd, hra]⟩
  · intro ce n v k habs
    obtain ⟨cok, cerr⟩ := resolve_condition_expression_sound ce n v
    cases hrc : resolve_condition_expression ce n v with
    | ok ru =>
        exfalso
        obtain ⟨r, un, uv⟩ := ru
        have hs := cok r un uv hrc
        rcases habs with ⟨hk, hnone⟩ | ⟨hk, hnone⟩
        · have := hs.1 k hk
          rw [hnone] at this
          simp at this
        · have := hs.2.1 k hk
          rw [hnone] at this
          simp at this
    | error e =>
        obtain ⟨k2, hk2⟩ := cerr e hrc
        subst hk2
        exact ⟨k2, rfl⟩
  · intro pe n k hk hnone
    obtain ⟨pok, perr⟩ := resolve_projection_expression_sound pe n
    cases hrp : resolve_projection_expression pe n with
    | ok ru =>
        exfalso
        obtain ⟨rs, u⟩ := ru
        have := pok rs u hrp k hk
        rw [hnone] at this
        simp at this
    | error e =>
        obtain ⟨k2, hk2⟩ := perr e hrp
        subst hk2
        exact ⟨k2, rfl⟩

/-- Witness for C4: the condition `:v = 1` with no attribute-values map
supplied fails with a ResolutionError. -/
theorem resolution_undefined_placeholder_fails_witness :
    ∃ k2, resolve_condition_expression
        (.comparison .eq (.value_ref ":v") (.literal (.num 1))) none none
      = .error (.resolution k2) :=
  resolution_undefined_placeholder_fails.2.1
    (.comparison .eq (.value_ref ":v") (.literal (.num 1))) none none ":v"
    (Or.inr ⟨by decide, rfl⟩)

/-- C8: a failing resolution call produces no partial, observable output —
the caller's AST and both usage sets are exactly as before the call — and
a successful `resolve_update_expression` returns a fully resolved AST, one
in which no name- or value-placeholder node remains. -/
theorem resolve_update_expression_failure_frame :
    (∀ (st : update_request_state) (n : Option (List (String × String)))
       (v : Option (List (String × item_value))) (e : resolve_error),
       (apply_resolve_update st n v).2 = some e →
       (apply_resolve_update st n v).1 = st)
    ∧ (∀ (ue : update_expression) (n : Option (List (String × String)))
       (v : Option (List (String × item_value))) ue2 un uv,
       resolve_update_expression ue n v = .ok (ue2, un, uv) →
       ue_name_refs ue2 = [] ∧ ue_value_refs ue2 = []) := by
  constructor
  · intro st n v e h
    cases hr : resolve_update_expression st.expr n v with
    | ok ru =>
        exfalso
        obtain ⟨ue2, un, uv⟩ := ru
        simp [apply_resolve_update, hr] at h
    | error e2 =>
        simp [apply_resolve_update, hr]
  · intro ue n v ue2 un uv h
    unfold resolve_update_expression at h
    split at h
    · cases h
    · obtain ⟨aok, _⟩ := resolve_actions_sound ue.actions n v
      cases hra : resolve_actions ue.actions n v with
      | ok ru =>
          obtain ⟨rs, un1, uv1⟩ := ru
          rw [hra] at h
          simp at h
          obtain ⟨h1, _⟩ := h
          subst h1
          have hs := aok rs un1 uv1 hra
          exact ⟨by simpa [ue_name_refs] using hs.2.2.1,
                 by simpa [ue_value_refs] using hs.2.2.2⟩
      | error e =>
          rw [hra] at h
          cases h

/-- Witness for C8: a resolution that fails on an undefined name
placeholder leaves the caller's state — AST and both usage sets —
untouched. -/
theorem resolve_update_expression_failure_frame_witness :
    (apply_resolve_update
        ⟨⟨[⟨[.name_ref "#n"], .remove⟩]⟩, ["seed"], []⟩ none none).1
      = ⟨⟨[⟨[.name_ref "#n"], .remove⟩]⟩, ["seed"], []⟩ :=
  resolve_update_expression_failure_frame.1
    ⟨⟨[⟨[.name_ref "#n"], .remove⟩]⟩, ["seed"], []⟩ none none
    (.resolution "#n") rfl

end alternator
